import Mathlib

/-!
# Agent Skills Hub — verification of the warehouse link & synchronization engine

Shallow embedding of the core of the Agent Skills Hub VS Code extension:

* `safeMove` / `copyDirectory` / `removeDirectory` from `src/utils/skillWarehouse.ts`
  (the second document of `src/unnamed/part_003`) — the StateMover actually wired
  into `enableSkill` / `disableSkill`;
* the alternative `safeMove` variant with a rename-retry loop that is embedded as a
  string in `insert_safemove.js` (`safeMoveFunction`), modelled as `renameLoop` /
  `safeMoveRetry`;
* the two-partition warehouse (`~/.claude/skills` enabled, `.disabled` disabled) and
  the operations `enableSkill`, `disableSkill` and the per-package import placement
  of `scanAndImportSkills` / `syncSource` from `src/src/utils/skillNotes.ts`
  (second document: `skillSources.ts`);
* `addSkillSource` / `removeSkillSource` rollback from the same file;
* `unlinkTool` from `src/unnamed/part_004` (`toolPaths.ts`);
* the note store `getSkillNote` / `setSkillNote` from `src/src/utils/skillNotes.ts`.

Filesystem effects are made explicit: a directory is a list of file names, transient
failures are injected through explicit fault-schedule records, and every operation is
a pure function from state and faults to result and state.
-/

namespace SkillsHub

/-! ## Error codes and generic association lists keyed by strings -/

/-- Node.js `errno` codes that occur in the sources.  `EPERM`, `EBUSY` and
`ENOTEMPTY` are the codes the retry variant of `safeMove` classifies as
"resource busy". -/
inductive ErrCode
  | eperm
  | ebusy
  | enotempty
  | enoent
  | exdev
  | eio
  deriving DecidableEq, Repr

/-- The busy-classification of `insert_safemove.js`:
`error.code === 'EPERM' || error.code === 'EBUSY' || error.code === 'ENOTEMPTY'`. -/
def isBusyCode : ErrCode → Bool
  | .eperm => true
  | .ebusy => true
  | .enotempty => true
  | _ => false

/-- Lookup in an association list keyed by strings (a JSON object / a directory
listing keyed by entry name). -/
def lookupS {β : Type} : List (String × β) → String → Option β
  | [], _ => none
  | (m, b) :: rest, n => if m = n then some b else lookupS rest n

/-- Remove every binding of a key (directory entry names are unique, so this is
ordinary removal). -/
def eraseS {β : Type} : List (String × β) → String → List (String × β)
  | [], _ => []
  | (m, b) :: rest, n => if m = n then eraseS rest n else (m, b) :: eraseS rest n

/-- Overwrite-or-create a binding (JS `obj[key] = v`, or writing a directory
entry). -/
def setS {β : Type} (l : List (String × β)) (n : String) (b : β) : List (String × β) :=
  (n, b) :: eraseS l n

/-! ## StateMover: `safeMove` of `skillWarehouse.ts` (src/unnamed/part_003, lines 405-460)

The filesystem fragment a move touches: the source directory and the destination
directory, each either absent (`none`) or present with its list of file names.
`copyDirectory` copies the files in listing order; `removeDirectory` deletes
recursively with its own bounded retry (3 attempts, `100ms * (i+1)` delays). -/

/-- The two directories a `safeMove` call touches. -/
structure MoveFs where
  src : Option (List String)
  dest : Option (List String)
  deriving DecidableEq, Repr

/-- How a `safeMove` call ended.

* `renamed` — strategy 1, the atomic rename, succeeded;
* `copied` — the copy + delete fallback completed fully;
* `softSuccess` — the fallback's `catch` found the destination existing and
  returned normally after only logging a warning (`console.warn`);
* `fatal` — the call threw. -/
inductive MoveOutcome
  | renamed
  | copied
  | softSuccess
  | fatal
  deriving DecidableEq, Repr

/-- Fault schedule for one `safeMove` call (part_003 variant).

* `removeDestFails` — the initial `removeDirectory(destPath)` throws after its
  internal retries (only reachable when `dest` exists);
* `renameErr` — `fs.promises.rename` fails with this code (`none` = success);
* `mkdirDestFails` — `copyDirectory`'s initial `mkdir(dest)` throws, so `dest`
  is never created;
* `copyFailsAfter k` — `copyDirectory` throws after copying the first `k`
  files (in listing order), leaving a partially-written `dest`;
* `deleteSrcFails` — the final `removeDirectory(srcPath)` throws after its
  retries, leaving `deleteSrcResidual` behind in `src`. -/
structure MoveFaults where
  removeDestFails : Bool
  renameErr : Option ErrCode
  mkdirDestFails : Bool
  copyFailsAfter : Option Nat
  deleteSrcFails : Bool
  deleteSrcResidual : List String
  deriving DecidableEq, Repr

/-- Result of a `safeMove` call, instrumented with how often the atomic rename
was attempted and which backoff sleeps were inserted between rename attempts. -/
structure MoveResult where
  outcome : MoveOutcome
  fs : MoveFs
  renameAttempts : Nat
  renameBackoffs : List Nat
  deriving DecidableEq, Repr

/-- `safeMove(srcPath, destPath)` from `skillWarehouse.ts` (part_003 lines
408-441), the mover used by `enableSkill` and `disableSkill`.

Transcription of the control flow:
1. if `dest` exists, `removeDirectory(destPath)`;
2. try `fs.promises.rename` — a single attempt, no error-code classification;
3. on any rename error, `copyDirectory(src, dest)`, a 200ms settle delay,
   then `removeDirectory(srcPath)`;
4. the `catch` around step 3: if `fs.existsSync(destPath)` it warns and
   returns normally, otherwise it rethrows.

The caller (`enableSkill`/`disableSkill`) has validated that `src` exists, so
schedules are only meaningful with `src = some files`. -/
def safeMove (fs : MoveFs) (f : MoveFaults) : MoveResult :=
  if fs.dest.isSome ∧ f.removeDestFails then
    ⟨.fatal, fs, 0, []⟩
  else
    let fs0 : MoveFs := ⟨fs.src, none⟩
    match f.renameErr with
    | none => ⟨.renamed, ⟨none, fs0.src⟩, 1, []⟩
    | some _ =>
      if f.mkdirDestFails then
        ⟨.fatal, fs0, 1, []⟩
      else
        match f.copyFailsAfter with
        | some k =>
          ⟨.softSuccess, ⟨fs0.src, some ((fs0.src.getD []).take k)⟩, 1, []⟩
        | none =>
          if f.deleteSrcFails then
            ⟨.softSuccess, ⟨some f.deleteSrcResidual, fs0.src⟩, 1, []⟩
          else
            ⟨.copied, ⟨none, fs0.src⟩, 1, []⟩

/-! ## The rename-retry `safeMove` variant of `insert_safemove.js` (lines 17-88)

`insert_safemove.js` carries, as a string constant (`safeMoveFunction`), a
`safeMove(src, dest, maxRetries = 3)` with a rename-retry loop and an atomic
copy fallback.  The rename loop is modelled as `renameLoop`; `renamePhase`
instantiates it the way the function starts it. -/

/-- How the rename loop of the retry variant ended: success, fall-through to
the copy + delete fallback, or an immediately rethrown non-busy error.  Each
constructor records how many rename attempts were made and the backoff sleeps
(in ms) inserted between attempts. -/
inductive RenamePhase
  | renamed (attempts : Nat) (backoffs : List Nat)
  | fallback (attempts : Nat) (backoffs : List Nat) (lastErr : Option ErrCode)
  | thrown (attempts : Nat) (backoffs : List Nat) (err : ErrCode)
  deriving DecidableEq, Repr

/-- The loop `for (attempt = 0; attempt < maxRetries; attempt++)` of the retry
variant.  `res i` is the outcome of the `i`-th `fs.promises.rename` attempt
(`none` = success).  A busy-classified failure sleeps `100 * (attempt + 1)` ms
when further attempts remain and continues; a non-busy failure is rethrown;
exhausting the loop falls through to the copy strategy.  The fuel argument is
`maxRetries - attempt` and makes the recursion structural. -/
def renameLoop (res : Nat → Option ErrCode) (maxRetries : Nat) :
    Nat → Nat → List Nat → Option ErrCode → RenamePhase
  | 0, attempt, backoffs, lastErr => .fallback attempt backoffs lastErr
  | fuel + 1, attempt, backoffs, _ =>
    match res attempt with
    | none => .renamed (attempt + 1) backoffs
    | some c =>
      if isBusyCode c then
        if attempt < maxRetries - 1 then
          renameLoop res maxRetries fuel (attempt + 1)
            (backoffs ++ [100 * (attempt + 1)]) (some c)
        else
          renameLoop res maxRetries fuel (attempt + 1) backoffs (some c)
      else .thrown (attempt + 1) backoffs c

/-- The rename phase of the retry variant, started as in the source:
attempt 0, no backoffs yet, `lastError` undefined. -/
def renamePhase (res : Nat → Option ErrCode) (maxRetries : Nat) : RenamePhase :=
  renameLoop res maxRetries maxRetries 0 [] none

/-- Fault schedule for the retry variant of `safeMove`.

* `renameRes i` — outcome of the `i`-th rename attempt;
* `deleteTrySucceeds i` — whether the `i`-th of the three `rm(src)` attempts
  of the fallback succeeds;
* `purgeDestFails` — the `rm(dest)` cleanup after a failed copy itself throws
  (that throw is swallowed by `catch { }` in the source). -/
structure RetryFaults where
  removeDestFails : Bool
  renameRes : Nat → Option ErrCode
  mkdirDestFails : Bool
  copyFailsAfter : Option Nat
  deleteTrySucceeds : Nat → Bool
  deleteResidual : List String
  purgeDestFails : Bool

/-- Result of the retry variant, keeping the rename phase for inspection
(`none` when the initial `rm(dest)` already threw). -/
structure RetryMoveResult where
  outcome : MoveOutcome
  fs : MoveFs
  phase : Option RenamePhase
  deriving Repr

/-- `safeMove(src, dest, maxRetries)` as embedded in `insert_safemove.js`
(lines 17-88): the rename-retry loop, then the copy fallback which purges a
partially-written `dest` and rethrows when the copy fails, and which tries the
source delete three times, downgrading to a logged soft success only when the
copy fully succeeded. -/
def safeMoveRetry (fs : MoveFs) (f : RetryFaults) (maxRetries : Nat) : RetryMoveResult :=
  if fs.dest.isSome ∧ f.removeDestFails then
    ⟨.fatal, fs, none⟩
  else
    let fs0 : MoveFs := ⟨fs.src, none⟩
    let ph := renamePhase f.renameRes maxRetries
    match ph with
    | .renamed _ _ => ⟨.renamed, ⟨none, fs0.src⟩, some ph⟩
    | .thrown _ _ _ => ⟨.fatal, fs0, some ph⟩
    | .fallback _ _ _ =>
      if f.mkdirDestFails then
        ⟨.fatal, fs0, some ph⟩
      else
        match f.copyFailsAfter with
        | some k =>
          if f.purgeDestFails then
            ⟨.fatal, ⟨fs0.src, some ((fs0.src.getD []).take k)⟩, some ph⟩
          else
            ⟨.fatal, ⟨fs0.src, none⟩, some ph⟩
        | none =>
          if (List.range 3).any f.deleteTrySucceeds then
            ⟨.copied, ⟨none, fs0.src⟩, some ph⟩
          else
            ⟨.softSuccess, ⟨some f.deleteResidual, fs0.src⟩, some ph⟩

/-! ## The two-partition warehouse and its operations

The warehouse lives at `~/.claude/skills` (enabled partition) with the disabled
partition at `~/.claude/skills/.disabled`.  A partition is modelled as an
association list from directory name to whether the directory contains the
`SKILL.md` marker file; content beyond the marker is irrelevant to the claims
below. -/

/-- A partition: directory name ↦ "contains `SKILL.md`". -/
abbrev Partition := List (String × Bool)

/-- The warehouse: the enabled partition (`~/.claude/skills`) and the disabled
partition (`.disabled`). -/
structure Warehouse where
  enabled : Partition
  disabled : Partition
  deriving DecidableEq, Repr

/-- How the `safeMove` inside an enable/disable completed, abstracted to its
effect on the partitions.

* `clean` — rename succeeded or the copy + delete fallback completed fully;
* `softDeleteFail` — the fallback copied fully but the source delete failed,
  so the source directory is left behind (the logged soft success);
* `failed` — `safeMove` threw, no partition change. -/
inductive MoveMode
  | clean
  | softDeleteFail
  | failed
  deriving DecidableEq, Repr

/-- Result of a warehouse operation as seen by the caller: returned normally
(`ok`) or threw (`err`). -/
inductive OpResult
  | ok
  | err
  deriving DecidableEq, Repr

/-- `enableSkill(skillName)` (part_003 lines 323-346): requires the directory
to exist in the disabled partition and to contain `SKILL.md`, then
`safeMove(disabled/name, skills/name)`.  `safeMove` removes an existing
destination first, so the enabled entry is overwritten. -/
def enableSkillW (w : Warehouse) (n : String) (mode : MoveMode) : OpResult × Warehouse :=
  match lookupS w.disabled n with
  | none => (.err, w)
  | some marker =>
    if marker = false then (.err, w)
    else
      match mode with
      | .clean => (.ok, ⟨setS w.enabled n marker, eraseS w.disabled n⟩)
      | .softDeleteFail => (.ok, ⟨setS w.enabled n marker, w.disabled⟩)
      | .failed => (.err, w)

/-- `disableSkill(skillName)` (part_003 lines 352-370): requires only that the
directory exists in the enabled partition — no `SKILL.md` check — then
`safeMove(skills/name, disabled/name)`. -/
def disableSkillW (w : Warehouse) (n : String) (mode : MoveMode) : OpResult × Warehouse :=
  match lookupS w.enabled n with
  | none => (.err, w)
  | some marker =>
    match mode with
    | .clean => (.ok, ⟨eraseS w.enabled n, setS w.disabled n marker⟩)
    | .softDeleteFail => (.ok, ⟨w.enabled, setS w.disabled n marker⟩)
    | .failed => (.err, w)

/-- Whether this import counted the package as newly added or as overwritten. -/
inductive ImportCount
  | added
  | updated
  deriving DecidableEq, Repr

/-- The per-package placement of `scanAndImportSkills` (skillNotes.ts second
document, lines 619-662), also used verbatim by the two single-skill branches
of `syncSource`:

* the enabled directory exists and contains `SKILL.md` → overwrite in the
  enabled partition, count as updated;
* else the disabled directory exists → overwrite there, count as updated;
* else create fresh in the disabled partition, count as added.

`copySkillDirectory` copies the discovered skill (which contains `SKILL.md`)
over the target, so the target entry carries the marker afterwards. -/
def importOne (w : Warehouse) (n : String) : ImportCount × Warehouse :=
  if lookupS w.enabled n = some true then
    (.updated, ⟨setS w.enabled n true, w.disabled⟩)
  else if (lookupS w.disabled n).isSome then
    (.updated, ⟨w.enabled, setS w.disabled n true⟩)
  else
    (.added, ⟨w.enabled, setS w.disabled n true⟩)

/-- One iteration of the import loop of `scanAndImportSkills`: place the
skill and bump the matching counter (`added`, `updated`). -/
def importStep (acc : Warehouse × Nat × Nat) (n : String) : Warehouse × Nat × Nat :=
  match importOne acc.1 n with
  | (.added, w2) => (w2, acc.2.1 + 1, acc.2.2)
  | (.updated, w2) => (w2, acc.2.1, acc.2.2 + 1)

/-- The import loop of `scanAndImportSkills`: fold `importStep` over the
discovered skill directory names; the pair is the `{ added, updated }`
summary `syncSource` returns. -/
def importSkills (w : Warehouse) (names : List String) : Warehouse × Nat × Nat :=
  names.foldl importStep (w, 0, 0)

/-- One user-level warehouse operation, with the fault mode of the move it
performs (imports use plain `copyDirectory`, no move). -/
inductive WOp
  | enable (n : String) (mode : MoveMode)
  | disable (n : String) (mode : MoveMode)
  | importSrc (names : List String)

/-- State transition of one operation (the result code is dropped). -/
def stepW (w : Warehouse) (op : WOp) : Warehouse :=
  match op with
  | .enable n mode => (enableSkillW w n mode).2
  | .disable n mode => (disableSkillW w n mode).2
  | .importSrc names => (importSkills w names).1

/-- Run a sequence of warehouse operations. -/
def runW (w : Warehouse) (ops : List WOp) : Warehouse :=
  ops.foldl stepW w

/-- An operation whose move did not take the soft-success path. -/
def noSoftB : WOp → Bool
  | .enable _ .softDeleteFail => false
  | .disable _ .softDeleteFail => false
  | _ => true

/-- The partition-uniqueness property: no name is a package (a directory
containing `SKILL.md`) in both partitions at once. -/
def PartitionsDisjoint (w : Warehouse) : Prop :=
  ∀ n, ¬(lookupS w.enabled n = some true ∧ lookupS w.disabled n = some true)

/-- Decidable form of `PartitionsDisjoint` (it is enough to scan the enabled
partition's keys). -/
def disjointPkgs (w : Warehouse) : Bool :=
  (w.enabled.map Prod.fst).all fun n =>
    !(decide (lookupS w.enabled n = some true) && decide (lookupS w.disabled n = some true))

/-! ## SourceSync: `addSkillSource` / `removeSkillSource` / `syncSource` rollback

`addSkillSource` (skillNotes.ts second document, lines 367-414) parses the URL,
derives `id = owner + "-" + repo`, rejects duplicates, persists a pending
record, then runs `syncSource`; on sync failure it rolls back through
`removeSkillSource` and rethrows the original error.  URL parsing
(`parseGitHubUrl`, three JS regexes) is treated as the boundary: the model
receives the parse result. -/

/-- Status values stored on a source registry record. -/
inductive SrcStatus
  | pending
  | synced
  deriving DecidableEq, Repr

/-- A registry record, reduced to the fields the rollback claim observes. -/
structure SourceRec where
  id : String
  status : SrcStatus
  deriving DecidableEq, Repr

/-- Persistent SourceSync state: the registry array of `.sources.json` and the
set of source ids whose checkout directory `<skills>/.sources/<id>` exists. -/
structure SourcesState where
  registry : List SourceRec
  checkouts : List String
  deriving DecidableEq, Repr

/-- Successful result of `parseGitHubUrl`. -/
structure ParsedRepo where
  owner : String
  repo : String
  deriving DecidableEq, Repr

/-- Errors `addSkillSource` can throw. -/
inductive AddErr
  | invalidUrl
  | alreadyExists
  | syncFailed (msg : String)
  deriving DecidableEq, Repr

/-- Decidable membership of a string in a list (the various
`find` / `existsSync` membership tests). -/
def elemS (l : List String) (i : String) : Bool :=
  l.any fun c => decide (c = i)

/-- `sources.find(s => s.id === id)` succeeded. -/
def hasId (l : List SourceRec) (i : String) : Bool :=
  elemS (l.map SourceRec.id) i

/-- `sources.splice(index, 1)` after `findIndex(s => s.id === id)`: remove the
first record with the given id. -/
def spliceFirst : List SourceRec → String → List SourceRec
  | [], _ => []
  | r :: rest, i => if r.id = i then rest else r :: spliceFirst rest i

/-- Add an id to the set of existing checkout directories. -/
def addCheckout (l : List String) (i : String) : List String :=
  if elemS l i then l else l ++ [i]

/-- Remove a checkout directory (`rm -rf`, a no-op when absent). -/
def dropCheckout (l : List String) (i : String) : List String :=
  l.filter fun c => !(decide (c = i))

/-- `removeSkillSource(id)` (lines 419-435): throw when the id is not
registered; otherwise delete the checkout directory if present and splice the
registry record out.  `none` models the throw. -/
def removeSkillSourceM (st : SourcesState) (i : String) : Option SourcesState :=
  if hasId st.registry i then
    some ⟨spliceFirst st.registry i, dropCheckout st.checkouts i⟩
  else
    none

/-- The effect of `syncSource` on the persistent state, abstracted for the
rollback claim.  On success the checkout exists and the record is updated to
`synced`; a clone failure throws before `updateSkillSource` runs, so the
registry is untouched and the checkout directory may or may not have been left
behind (`failLeavesCheckout`). -/
def syncSourceEffect (st : SourcesState) (i : String) (syncFails : Bool)
    (failLeavesCheckout : Bool) : SourcesState × Bool :=
  if syncFails then
    (⟨st.registry,
      if failLeavesCheckout then addCheckout st.checkouts i else dropCheckout st.checkouts i⟩,
     false)
  else
    (⟨st.registry.map fun r => if r.id = i then ⟨r.id, .synced⟩ else r,
      addCheckout st.checkouts i⟩,
     true)

/-- `addSkillSource(url)` (lines 367-414): invalid URL throws; duplicate id
throws; otherwise push a pending record, save, and run `syncSource`.  On sync
failure, roll back via `removeSkillSource(id)` (a failure of the rollback
itself is only logged) and rethrow the original sync error `e`. -/
def addSkillSourceM (st : SourcesState) (parsed : Option ParsedRepo)
    (syncFails : Bool) (failLeavesCheckout : Bool) (e : String) :
    Except AddErr Unit × SourcesState :=
  match parsed with
  | none => (.error .invalidUrl, st)
  | some p =>
    let i := p.owner ++ "-" ++ p.repo
    if hasId st.registry i then
      (.error .alreadyExists, st)
    else
      let st1 : SourcesState := ⟨st.registry ++ [⟨i, .pending⟩], st.checkouts⟩
      let step := syncSourceEffect st1 i syncFails failLeavesCheckout
      if step.2 then
        (.ok (), step.1)
      else
        match removeSkillSourceM step.1 i with
        | some st3 => (.error (.syncFailed e), st3)
        | none => (.error (.syncFailed e), step.1)

/-! ## LinkManager: `unlinkTool` of `toolPaths.ts` (src/unnamed/part_004, lines 291-390) -/

/-- What `lstat` reports at the tool's target path. -/
inductive PathKind
  | absent
  | plainDir
  | dirLink
  deriving DecidableEq, Repr

/-- Fault schedule for one `unlinkTool` call.

* `removePrimitiveFails` — the platform removal primitive (`rmdir` on Windows,
  `fs.promises.unlink` elsewhere) throws;
* `linkPersists` — the primitive returned but the verification `lstat` still
  reports a symbolic link;
* `mkdirFails` — recreating the plain directory afterwards throws. -/
structure UnlinkFaults where
  removePrimitiveFails : Bool
  linkPersists : Bool
  mkdirFails : Bool
  deriving DecidableEq, Repr

/-- Caller-visible result of `unlinkTool`: `unlinked` = resolved `true`,
`notLinked` = resolved `false`, `failed` = threw. -/
inductive UnlinkResult
  | unlinked
  | notLinked
  | failed
  deriving DecidableEq, Repr

/-- `unlinkTool(toolId, warehousePath, syncBack)` (part_004 lines 291-390),
restricted to the state of the target path.  The path is the one the probing
over the candidate `globalPath`s resolved.  `sameAsWarehouse` is the
`path.normalize(targetPath) !== path.normalize(warehousePath)` guard (tools
like Antigravity whose skills path is the warehouse itself skip the
re-creation).  `syncBack` only copies contents into the recreated directory
and does not change the path's kind. -/
def unlinkTool (target : PathKind) (sameAsWarehouse : Bool) (syncBack : Bool)
    (f : UnlinkFaults) : UnlinkResult × PathKind :=
  match target with
  | .absent => (.notLinked, .absent)
  | .plainDir => (.notLinked, .plainDir)
  | .dirLink =>
    if f.removePrimitiveFails then (.failed, .dirLink)
    else if f.linkPersists then (.failed, .dirLink)
    else if sameAsWarehouse then (.unlinked, .absent)
    else if f.mkdirFails then (.failed, .absent)
    else
      let _ := syncBack
      (.unlinked, .plainDir)

/-! ## Note store: `getSkillNote` / `setSkillNote` (skillNotes.ts, lines 18-107) -/

/-- One record of `.skill-notes.json`. -/
structure SkillNote where
  skillId : String
  note : String
  createdAt : Nat
  updatedAt : Nat
  deriving DecidableEq, Repr

/-- The flat JSON object of `.skill-notes.json`, keyed by skill id. -/
abbrev NotesStore := List (String × SkillNote)

/-- `getSkillId(skillName)`: strip a trailing `.md` (`replace(/\.md$/, '')`),
expressed over the character list (a name ends with `".md"` exactly when its
reversal starts with `d`, `m`, `.`). -/
def getSkillId (skillName : String) : String :=
  let cs := skillName.data
  if cs.reverse.take 3 = ['d', 'm', '.'] then
    String.mk (cs.take (cs.length - 3))
  else skillName

/-- `getSkillNote(skillName)`: `notes[skillId]?.note || null` — a missing
record and an empty-string note both come back as `null`. -/
def getSkillNote (store : NotesStore) (skillName : String) : Option String :=
  match lookupS store (getSkillId skillName) with
  | none => none
  | some r => if r.note = "" then none else some r.note

/-- `setSkillNote(skillName, note)`: update the existing record's `note` and
`updatedAt`, or create a fresh record; then save the whole object.  `now` is
`Date.now()`. -/
def setSkillNote (store : NotesStore) (skillName : String) (note : String)
    (now : Nat) : NotesStore :=
  let i := getSkillId skillName
  match lookupS store i with
  | some r => setS store i ⟨r.skillId, note, r.createdAt, now⟩
  | none => setS store i ⟨i, note, now, now⟩

/-! ## Association-list lemmas -/

theorem lookupS_eraseS {β : Type} (l : List (String × β)) (n m : String) :
    lookupS (eraseS l n) m = if m = n then none else lookupS l m := by
  induction l with
  | nil => simp [lookupS, eraseS]
  | cons hd tl ih =>
    obtain ⟨a, b⟩ := hd
    by_cases han : a = n <;> by_cases ham : a = m <;> by_cases hmn : m = n <;>
      simp_all [eraseS, lookupS]

theorem lookupS_setS {β : Type} (l : List (String × β)) (n m : String) (b : β) :
    lookupS (setS l n b) m = if n = m then some b else lookupS l m := by
  unfold setS
  by_cases h : n = m
  · simp [lookupS, h]
  · simp [lookupS, h, lookupS_eraseS, Ne.symm h]

theorem lookupS_mem_keys {β : Type} {l : List (String × β)} {n : String} {b : β}
    (h : lookupS l n = some b) : n ∈ l.map Prod.fst := by
  induction l with
  | nil => simp [lookupS] at h
  | cons hd tl ih =>
    obtain ⟨a, c⟩ := hd
    by_cases han : a = n
    · simp [han]
    · rw [lookupS, if_neg han] at h
      simp [ih h]

/-- `disjointPkgs` decides exactly the claim-C2 property. -/
theorem disjointPkgs_iff (w : Warehouse) :
    disjointPkgs w = true ↔
      ∀ n, ¬(lookupS w.enabled n = some true ∧ lookupS w.disabled n = some true) := by
  unfold disjointPkgs
  rw [List.all_eq_true]
  constructor
  · intro h n hn
    have hmem := lookupS_mem_keys hn.1
    have hb := h n hmem
    simp only [Bool.not_eq_true', Bool.and_eq_false_iff, decide_eq_false_iff_not] at hb
    rcases hb with hb | hb
    · exact hb hn.1
    · exact hb hn.2
  · intro h x _
    simp only [Bool.not_eq_true', Bool.and_eq_false_iff, decide_eq_false_iff_not]
    by_cases h1 : lookupS w.enabled x = some true
    · exact Or.inr fun h2 => h x ⟨h1, h2⟩
    · exact Or.inl h1

/-! ## C1 — Move safety of the shipped `safeMove` -/

/-- Claim C1.  "After `move(src, dest)` completes without a fatal error, either
(a) `dest` contains all N files and `src` is absent, or (b) a soft success is
reported, `dest` contains all N files, and no file from `src` was lost."
The shipped `safeMove` (skillWarehouse.ts, part_003 lines 408-441) violates
this: when the fallback copy fails partway, the `catch` only checks
`fs.existsSync(destPath)`, which holds as soon as `copyDirectory`'s initial
`mkdir` ran, so the move returns as a (logged) soft success while `dest` holds
only a strict subset of the files.  Concretely: `src` holds files `a` and `b`,
the rename fails with `EBUSY`, the copy fails after copying only `a` — the
call reports soft success with `dest = [a]`. -/
theorem safeMove_partial_copy_soft_success_incomplete_dest :
    (safeMove ⟨some ["a", "b"], none⟩
        ⟨false, some .ebusy, false, some 1, false, []⟩).outcome = .softSuccess ∧
    (safeMove ⟨some ["a", "b"], none⟩
        ⟨false, some .ebusy, false, some 1, false, []⟩).fs.dest = some ["a"] ∧
    some ["a"] ≠ some ["a", "b"] :=
  ⟨rfl, rfl, by decide⟩

/-! ## C6 — Atomicity of the copy fallback -/

/-- Claim C6.  "If the recursive copy performed by the fallback itself fails,
any partially-written `dest` directory is purged and the original error is
surfaced as a fatal error; the move is never reported as a success in that
case."  The shipped `safeMove` does the opposite: a mid-copy failure leaves
the partially-written `dest` in place and returns normally (soft success),
because its `catch` treats any existing `dest` as "copy succeeded".  Concrete
run: `src` holds `f1`, `f2`, `f3`, rename fails with `EPERM`, the copy fails
after one file — the outcome is a reported success with `dest = [f1]` kept,
not purged.  (The variant in `insert_safemove.js` purges `dest` and rethrows,
which is the behaviour this claim describes.) -/
theorem safeMove_copy_failure_not_purged_reported_success :
    (safeMove ⟨some ["f1", "f2", "f3"], none⟩
        ⟨false, some .eperm, false, some 1, false, []⟩).outcome = .softSuccess ∧
    (safeMove ⟨some ["f1", "f2", "f3"], none⟩
        ⟨false, some .eperm, false, some 1, false, []⟩).outcome ≠ .fatal ∧
    (safeMove ⟨some ["f1", "f2", "f3"], none⟩
        ⟨false, some .eperm, false, some 1, false, []⟩).fs.dest = some ["f1"] :=
  ⟨rfl, by decide, rfl⟩

/-! ## C8 — Unlink verification -/

/-- Claim C8.  After `unlinkTool` succeeds on a target that was a
directory-link, re-resolving the target via `lstat` never yields a
directory-link; and when the link still resolves as a link after the removal
primitive, `unlinkTool` throws (`文件占用…` / `UnlinkFailed`) instead of
reporting success. -/
theorem unlinkTool_verification (target : PathKind) (same syncBack : Bool)
    (f : UnlinkFaults) :
    ((unlinkTool target same syncBack f).1 = .unlinked →
      (unlinkTool target same syncBack f).2 ≠ .dirLink) ∧
    (target = .dirLink → f.removePrimitiveFails = false → f.linkPersists = true →
      (unlinkTool target same syncBack f).1 = .failed ∧
      (unlinkTool target same syncBack f).1 ≠ .unlinked) := by
  obtain ⟨rp, lp, mk⟩ := f
  cases target <;> cases rp <;> cases lp <;> cases mk <;> cases same <;>
    simp [unlinkTool]

/-- Witness for C8 at concrete inputs: a clean unlink of a link leaves a plain
directory, and a persisting link makes the call fail. -/
theorem unlinkTool_verification_witness :
    (unlinkTool .dirLink false false ⟨false, false, false⟩).2 ≠ .dirLink ∧
    (unlinkTool .dirLink false false ⟨false, true, false⟩).1 = .failed :=
  ⟨(unlinkTool_verification .dirLink false false ⟨false, false, false⟩).1 rfl,
   ((unlinkTool_verification .dirLink false false ⟨false, true, false⟩).2 rfl rfl rfl).1⟩

/-! ## C10 — Note round-trip -/

/-- Claim C10.  `setSkillNote(name, note)` followed by `getSkillNote(name)`
returns the note when it is non-empty and leaves every other skill's note
unchanged (two names denote the same skill exactly when `getSkillId` agrees,
since the store is keyed by the id); after `setSkillNote(name, "")`,
`getSkillNote(name)` is `null` — the `|| null` in `getSkillNote` makes an
empty note indistinguishable from an absent one. -/
theorem setSkillNote_getSkillNote_round_trip (store : NotesStore)
    (skillName note : String) (now : Nat) (other : String) :
    (note ≠ "" →
      getSkillNote (setSkillNote store skillName note now) skillName = some note) ∧
    (getSkillId other ≠ getSkillId skillName →
      getSkillNote (setSkillNote store skillName note now) other =
        getSkillNote store other) ∧
    getSkillNote (setSkillNote store skillName "" now) skillName = none := by
  refine ⟨?_, ?_, ?_⟩
  · intro hne
    unfold getSkillNote setSkillNote
    cases hr : lookupS store (getSkillId skillName) <;>
      simp [hr, lookupS_setS, hne]
  · intro hother
    unfold getSkillNote setSkillNote
    cases hr : lookupS store (getSkillId skillName) <;>
      simp [hr, lookupS_setS, Ne.symm hother]
  · unfold getSkillNote setSkillNote
    cases hr : lookupS store (getSkillId skillName) <;>
      simp [hr, lookupS_setS]

/-- Witness for C10 at concrete inputs (note `"beta"` and `"alpha.md"` have
different ids while `"alpha.md"` and `"alpha"` share one). -/
theorem setSkillNote_getSkillNote_round_trip_witness :
    getSkillNote (setSkillNote [] "alpha" "hello" 5) "alpha" = some "hello" ∧
    getSkillNote (setSkillNote [] "alpha" "hello" 5) "beta" = getSkillNote [] "beta" ∧
    getSkillNote (setSkillNote [] "alpha" "" 6) "alpha" = none :=
  ⟨(setSkillNote_getSkillNote_round_trip [] "alpha" "hello" 5 "beta").1 (by decide),
   (setSkillNote_getSkillNote_round_trip [] "alpha" "hello" 5 "beta").2.1 (by decide),
   (setSkillNote_getSkillNote_round_trip [] "alpha" "hello" 6 "beta").2.2⟩

/-! ## C3 — Import placement -/

/-- Claim C3.  For every package discovered during a sync: if a package of the
same name exists in the enabled partition (directory present with `SKILL.md`),
it is overwritten in place there and remains enabled; else if the name exists
in the disabled partition, it is overwritten there; else it is created fresh
in the disabled partition — an import never auto-enables a package (in the
latter two cases the enabled partition is untouched). -/
theorem importOne_placement_trichotomy (w : Warehouse) (n : String) :
    (lookupS w.enabled n = some true →
      importOne w n = (.updated, ⟨setS w.enabled n true, w.disabled⟩) ∧
      lookupS (importOne w n).2.enabled n = some true ∧
      (importOne w n).2.disabled = w.disabled) ∧
    (lookupS w.enabled n ≠ some true → (lookupS w.disabled n).isSome = true →
      importOne w n = (.updated, ⟨w.enabled, setS w.disabled n true⟩) ∧
      (importOne w n).2.enabled = w.enabled) ∧
    (lookupS w.enabled n ≠ some true → lookupS w.disabled n = none →
      importOne w n = (.added, ⟨w.enabled, setS w.disabled n true⟩) ∧
      (importOne w n).2.enabled = w.enabled ∧
      lookupS (importOne w n).2.enabled n ≠ some true) := by
  refine ⟨?_, ?_, ?_⟩
  · intro he
    simp [importOne, he, lookupS_setS]
  · intro he hd
    simp [importOne, he, hd]
  · intro he hd
    simp [importOne, he, hd]

/-- Witness for C3: the three placement branches at concrete warehouses. -/
theorem importOne_placement_trichotomy_witness :
    importOne ⟨[("s", true)], []⟩ "s" = (.updated, ⟨setS [("s", true)] "s" true, []⟩) ∧
    importOne ⟨[], [("s", true)]⟩ "s" = (.updated, ⟨[], setS [("s", true)] "s" true⟩) ∧
    importOne ⟨[], []⟩ "s" = (.added, ⟨[], setS [] "s" true⟩) :=
  ⟨((importOne_placement_trichotomy ⟨[("s", true)], []⟩ "s").1 (by decide)).1,
   ((importOne_placement_trichotomy ⟨[], [("s", true)]⟩ "s").2.1 (by decide) (by decide)).1,
   ((importOne_placement_trichotomy ⟨[], []⟩ "s").2.2 (by decide) (by decide)).1⟩

/-! ## C9 — Marker-check asymmetry between enable and disable -/

/-- Claim C9.  `enableSkill` throws whenever the named directory in the
disabled partition lacks `SKILL.md`, regardless of the move outcome; while
`disableSkill` performs no marker check: any existing directory of the enabled
partition — marker or not — is moved to the disabled partition and the call
reports success. -/
theorem enable_requires_marker_disable_does_not (w : Warehouse) (n : String) :
    (lookupS w.disabled n = some false →
      ∀ mode, enableSkillW w n mode = (.err, w)) ∧
    (∀ b, lookupS w.enabled n = some b →
      (disableSkillW w n .clean).1 = .ok ∧
      (disableSkillW w n .clean).2 = ⟨eraseS w.enabled n, setS w.disabled n b⟩ ∧
      lookupS (disableSkillW w n .clean).2.disabled n = some b) := by
  constructor
  · intro h mode
    simp [enableSkillW, h]
  · intro b h
    simp [disableSkillW, h, lookupS_setS]

/-- Witness for C9: a markerless directory cannot be enabled but can be
disabled. -/
theorem enable_requires_marker_disable_does_not_witness :
    enableSkillW ⟨[], [("bare", false)]⟩ "bare" .clean = (.err, ⟨[], [("bare", false)]⟩) ∧
    (disableSkillW ⟨[("bare", false)], []⟩ "bare" .clean).1 = .ok :=
  ⟨(enable_requires_marker_disable_does_not ⟨[], [("bare", false)]⟩ "bare").1 (by decide) .clean,
   ((enable_requires_marker_disable_does_not ⟨[("bare", false)], []⟩ "bare").2 false
      (by decide)).1⟩

/-! ## C5 — Rename retry location -/

/-- Counterexample to claim C5 as stated.  The claim says the move retries the
rename up to 3 times with backoff `100ms * attempt` on a resource-busy
failure; the `safeMove` compiled into the extension makes exactly one rename
attempt with no backoff sleep and falls back to copy-then-delete directly,
even on a persistent `EBUSY`. -/
theorem safeMove_single_rename_attempt_counterexample :
    (safeMove ⟨some ["a"], none⟩
        ⟨false, some .ebusy, false, none, false, []⟩).renameAttempts = 1 ∧
    (safeMove ⟨some ["a"], none⟩
        ⟨false, some .ebusy, false, none, false, []⟩).renameBackoffs = [] ∧
    ¬((safeMove ⟨some ["a"], none⟩
        ⟨false, some .ebusy, false, none, false, []⟩).renameAttempts = 3 ∧
      (safeMove ⟨some ["a"], none⟩
        ⟨false, some .ebusy, false, none, false, []⟩).renameBackoffs = [100, 200]) :=
  ⟨rfl, rfl, by decide⟩

/-- Claim C5, amended.  The shipped `safeMove` (skillWarehouse.ts) makes at
most one rename attempt with no backoff, and on any rename failure it goes
straight to the copy-then-delete fallback.  The retry behaviour the claim
describes belongs to the `safeMove` variant embedded in `insert_safemove.js`:
with the default `maxRetries = 3`, when every attempt fails with a
busy-classified code (`EPERM`/`EBUSY`/`ENOTEMPTY`) the rename is attempted
exactly 3 times with backoff sleeps `100 * 1` and `100 * 2` ms between
attempts, after which the move falls back to copy-then-delete. -/
theorem rename_retry_located_in_insert_variant
    (fs fs2 : MoveFs) (f : MoveFaults) (g : RetryFaults)
    (res : Nat → Option ErrCode) (c0 c1 c2 : ErrCode)
    (h0 : res 0 = some c0) (hb0 : isBusyCode c0 = true)
    (h1 : res 1 = some c1) (hb1 : isBusyCode c1 = true)
    (h2 : res 2 = some c2) (hb2 : isBusyCode c2 = true) :
    (safeMove fs f).renameAttempts ≤ 1 ∧
    (safeMove fs f).renameBackoffs = [] ∧
    (∀ c, f.renameErr = some c → ¬(fs.dest.isSome ∧ f.removeDestFails) →
      (safeMove fs f).outcome ≠ .renamed ∧ (safeMove fs f).renameAttempts = 1) ∧
    renamePhase res 3 = .fallback 3 [100 * 1, 100 * 2] (some c2) ∧
    (g.renameRes = res → fs2.dest = none → g.mkdirDestFails = false →
      g.copyFailsAfter = none → g.deleteTrySucceeds 0 = true →
      safeMoveRetry fs2 g 3 =
        ⟨.copied, ⟨none, fs2.src⟩, some (.fallback 3 [100 * 1, 100 * 2] (some c2))⟩) := by
  have hphase : renamePhase res 3 = .fallback 3 [100 * 1, 100 * 2] (some c2) := by
    unfold renamePhase
    simp [renameLoop, h0, h1, h2, hb0, hb1, hb2]
  have hone : (safeMove fs f).renameAttempts ≤ 1 ∧ (safeMove fs f).renameBackoffs = [] := by
    by_cases hrm : fs.dest.isSome ∧ f.removeDestFails
    · simp [safeMove, hrm]
    · cases hre : f.renameErr with
      | none => simp [safeMove, hrm, hre]
      | some c0 =>
        by_cases hmk : f.mkdirDestFails
        · simp [safeMove, hrm, hre, hmk]
        · cases hcf : f.copyFailsAfter with
          | some k => simp [safeMove, hrm, hre, hmk, hcf]
          | none =>
            by_cases hds : f.deleteSrcFails
            · simp [safeMove, hrm, hre, hmk, hcf, hds]
            · simp [safeMove, hrm, hre, hmk, hcf, hds]
  refine ⟨hone.1, hone.2, ?_, hphase, ?_⟩
  · intro c hc hno
    by_cases hmk : f.mkdirDestFails
    · simp [safeMove, hno, hc, hmk]
    · cases hcf : f.copyFailsAfter with
      | some k => simp [safeMove, hno, hc, hmk, hcf]
      | none =>
        by_cases hds : f.deleteSrcFails
        · simp [safeMove, hno, hc, hmk, hcf, hds]
        · simp [safeMove, hno, hc, hmk, hcf, hds]
  · intro hres hdest hmk hcf hdel
    have hany : (List.range 3).any g.deleteTrySucceeds = true :=
      List.any_eq_true.mpr ⟨0, by decide, hdel⟩
    simp [safeMoveRetry, hdest, hres, hphase, hmk, hcf, hany]

/-- Witness for C5 (amended), with every rename attempt failing `EBUSY`: the
shipped mover makes its single attempt and does not rename; the retry variant
makes 3 attempts with backoffs 100 and 200 ms and then completes through the
copy-then-delete fallback. -/
theorem rename_retry_located_in_insert_variant_witness :
    (safeMove ⟨some ["a"], none⟩
        ⟨false, some .ebusy, false, none, false, []⟩).renameAttempts ≤ 1 ∧
    (safeMove ⟨some ["a"], none⟩
        ⟨false, some .ebusy, false, none, false, []⟩).outcome ≠ .renamed ∧
    renamePhase (fun _ => some .ebusy) 3 = .fallback 3 [100 * 1, 100 * 2] (some .ebusy) ∧
    safeMoveRetry ⟨some ["a"], none⟩
        ⟨false, fun _ => some .ebusy, false, none, fun _ => true, [], false⟩ 3 =
      ⟨.copied, ⟨none, some ["a"]⟩, some (.fallback 3 [100 * 1, 100 * 2] (some .ebusy))⟩ := by
  have h := rename_retry_located_in_insert_variant
    ⟨some ["a"], none⟩ ⟨some ["a"], none⟩
    ⟨false, some .ebusy, false, none, false, []⟩
    ⟨false, fun _ => some .ebusy, false, none, fun _ => true, [], false⟩
    (fun _ => some .ebusy) .ebusy .ebusy .ebusy rfl rfl rfl rfl rfl rfl
  exact ⟨h.1, (h.2.2.1 .ebusy rfl (by decide)).1, h.2.2.2.1,
    h.2.2.2.2 rfl rfl rfl rfl rfl⟩

/-! ## C4 — Rollback on add failure -/

theorem dropCheckout_of_not_elem (l : List String) (i : String) (h : elemS l i = false) :
    dropCheckout l i = l := by
  rw [dropCheckout, List.filter_eq_self]
  intro a ha
  have hai : ¬(a = i) := by
    intro hai
    subst hai
    have hA : elemS l a = true := by
      rw [elemS]
      exact List.any_eq_true.mpr ⟨a, ha, by simp⟩
    rw [h] at hA
    exact Bool.false_ne_true hA
  simp [hai]

theorem dropCheckout_append_self (l : List String) (i : String) (h : elemS l i = false) :
    dropCheckout (l ++ [i]) i = l := by
  rw [dropCheckout, List.filter_append]
  have h1 : List.filter (fun c => !(decide (c = i))) l = l := dropCheckout_of_not_elem l i h
  rw [h1]
  simp

theorem dropCheckout_addCheckout (l : List String) (i : String) (h : elemS l i = false) :
    dropCheckout (addCheckout l i) i = l := by
  rw [addCheckout, h]
  rw [if_neg Bool.false_ne_true]
  exact dropCheckout_append_self l i h

theorem spliceFirst_append (l : List SourceRec) (r : SourceRec)
    (h : elemS (l.map SourceRec.id) r.id = false) :
    spliceFirst (l ++ [r]) r.id = l := by
  induction l with
  | nil => simp [spliceFirst]
  | cons a tl ih =>
    rw [List.map_cons, elemS, List.any_cons, Bool.or_eq_false_iff] at h
    have ha : ¬(a.id = r.id) := by simpa using h.1
    have htl : elemS (tl.map SourceRec.id) r.id = false := by
      rw [elemS]
      exact h.2
    rw [List.cons_append, spliceFirst, if_neg ha, ih htl]

theorem hasId_append_self (l : List SourceRec) (i : String) (s : SrcStatus) :
    hasId (l ++ [⟨i, s⟩]) i = true := by
  rw [hasId, List.map_append, elemS]
  simp

/-- Claim C4.  For a URL that parses to a fresh `owner-repo` id whose
subsequent sync fails, `addSkillSource` deletes the just-added registry record
and its checkout directory and re-raises the original error: the registry and
the checkout set are exactly as before the call, whether or not the failed
clone left a checkout directory behind. -/
theorem addSkillSource_rollback_on_sync_failure (st : SourcesState) (p : ParsedRepo)
    (flc : Bool) (e : String)
    (hfresh : hasId st.registry (p.owner ++ "-" ++ p.repo) = false)
    (hco : elemS st.checkouts (p.owner ++ "-" ++ p.repo) = false) :
    addSkillSourceM st (some p) true flc e = (.error (.syncFailed e), st) := by
  have hr : spliceFirst (st.registry ++ [⟨p.owner ++ "-" ++ p.repo, .pending⟩])
      (p.owner ++ "-" ++ p.repo) = st.registry :=
    spliceFirst_append st.registry ⟨p.owner ++ "-" ++ p.repo, .pending⟩
      (by rw [hasId] at hfresh; exact hfresh)
  have hc2 : dropCheckout
      (if flc then addCheckout st.checkouts (p.owner ++ "-" ++ p.repo)
       else dropCheckout st.checkouts (p.owner ++ "-" ++ p.repo))
      (p.owner ++ "-" ++ p.repo) = st.checkouts := by
    cases flc with
    | true =>
      rw [if_pos rfl]
      exact dropCheckout_addCheckout _ _ hco
    | false =>
      rw [if_neg Bool.false_ne_true]
      rw [dropCheckout_of_not_elem _ _ hco, dropCheckout_of_not_elem _ _ hco]
  simp [addSkillSourceM, hfresh, syncSourceEffect, removeSkillSourceM,
    hasId_append_self, hr, hc2]

/-- Witness for C4: adding `acme/skills` to a registry holding one other
source with a failing sync that leaves a stray checkout — the state is
restored exactly and the original error is re-raised. -/
theorem addSkillSource_rollback_witness :
    addSkillSourceM ⟨[⟨"x-y", .synced⟩], ["x-y"]⟩ (some ⟨"acme", "skills"⟩)
        true true "clone failed"
      = (.error (.syncFailed "clone failed"), ⟨[⟨"x-y", .synced⟩], ["x-y"]⟩) :=
  addSkillSource_rollback_on_sync_failure ⟨[⟨"x-y", .synced⟩], ["x-y"]⟩
    ⟨"acme", "skills"⟩ true "clone failed" (by decide) (by decide)

/-! ## C2 — Partition uniqueness -/

theorem importOne_keeps_disjoint (w : Warehouse) (n0 : String)
    (h : PartitionsDisjoint w) : PartitionsDisjoint (importOne w n0).2 := by
  intro n hn
  obtain ⟨hn1, hn2⟩ := hn
  by_cases he : lookupS w.enabled n0 = some true
  · have hstE : (importOne w n0).2.enabled = setS w.enabled n0 true := by
      simp [importOne, he]
    have hstD : (importOne w n0).2.disabled = w.disabled := by
      simp [importOne, he]
    rw [hstE, lookupS_setS] at hn1
    rw [hstD] at hn2
    by_cases h0 : n0 = n
    · subst h0
      exact h n0 ⟨he, hn2⟩
    · rw [if_neg h0] at hn1
      exact h n ⟨hn1, hn2⟩
  · have hstE : (importOne w n0).2.enabled = w.enabled := by
      by_cases hd : (lookupS w.disabled n0).isSome <;> simp [importOne, he, hd]
    have hstD : (importOne w n0).2.disabled = setS w.disabled n0 true := by
      by_cases hd : (lookupS w.disabled n0).isSome <;> simp [importOne, he, hd]
    rw [hstE] at hn1
    rw [hstD, lookupS_setS] at hn2
    by_cases h0 : n0 = n
    · subst h0
      exact he hn1
    · rw [if_neg h0] at hn2
      exact h n ⟨hn1, hn2⟩

theorem importStep_fst (acc : Warehouse × Nat × Nat) (n : String) :
    (importStep acc n).1 = (importOne acc.1 n).2 := by
  rw [importStep]
  rcases himp : importOne acc.1 n with ⟨c, w2⟩
  cases c <;> rfl

theorem importSkills_foldl_fst (names : List String) :
    ∀ (acc : Warehouse × Nat × Nat),
      (names.foldl importStep acc).1 =
        names.foldl (fun wa n => (importOne wa n).2) acc.1 := by
  induction names with
  | nil =>
    intro acc
    rfl
  | cons n rest ih =>
    intro acc
    rw [List.foldl_cons, List.foldl_cons, ih, importStep_fst]

theorem importFold_keeps_disjoint (names : List String) :
    ∀ (w : Warehouse), PartitionsDisjoint w →
      PartitionsDisjoint (names.foldl (fun wa n => (importOne wa n).2) w) := by
  induction names with
  | nil =>
    intro w h
    exact h
  | cons n0 rest ih =>
    intro w h
    rw [List.foldl_cons]
    exact ih _ (importOne_keeps_disjoint w n0 h)

theorem enableSkillW_keeps_disjoint (w : Warehouse) (n0 : String) (mode : MoveMode)
    (hmode : mode ≠ .softDeleteFail) (h : PartitionsDisjoint w) :
    PartitionsDisjoint (enableSkillW w n0 mode).2 := by
  cases hd : lookupS w.disabled n0 with
  | none =>
    have hst : (enableSkillW w n0 mode).2 = w := by simp [enableSkillW, hd]
    rw [hst]
    exact h
  | some marker =>
    cases marker with
    | false =>
      have hst : (enableSkillW w n0 mode).2 = w := by simp [enableSkillW, hd]
      rw [hst]
      exact h
    | true =>
      cases mode with
      | softDeleteFail => exact absurd rfl hmode
      | failed =>
        have hst : (enableSkillW w n0 .failed).2 = w := by simp [enableSkillW, hd]
        rw [hst]
        exact h
      | clean =>
        have hst : (enableSkillW w n0 .clean).2 =
            ⟨setS w.enabled n0 true, eraseS w.disabled n0⟩ := by
          simp [enableSkillW, hd]
        rw [hst]
        intro n hn
        obtain ⟨hn1, hn2⟩ := hn
        simp only at hn1 hn2
        rw [lookupS_eraseS] at hn2
        by_cases h0 : n = n0
        · rw [if_pos h0] at hn2
          cases hn2
        · rw [if_neg h0] at hn2
          rw [lookupS_setS, if_neg (fun hx : n0 = n => h0 hx.symm)] at hn1
          exact h n ⟨hn1, hn2⟩

theorem disableSkillW_keeps_disjoint (w : Warehouse) (n0 : String) (mode : MoveMode)
    (hmode : mode ≠ .softDeleteFail) (h : PartitionsDisjoint w) :
    PartitionsDisjoint (disableSkillW w n0 mode).2 := by
  cases hd : lookupS w.enabled n0 with
  | none =>
    have hst : (disableSkillW w n0 mode).2 = w := by simp [disableSkillW, hd]
    rw [hst]
    exact h
  | some marker =>
    cases mode with
    | softDeleteFail => exact absurd rfl hmode
    | failed =>
      have hst : (disableSkillW w n0 .failed).2 = w := by simp [disableSkillW, hd]
      rw [hst]
      exact h
    | clean =>
      have hst : (disableSkillW w n0 .clean).2 =
          ⟨eraseS w.enabled n0, setS w.disabled n0 marker⟩ := by
        simp [disableSkillW, hd]
      rw [hst]
      intro n hn
      obtain ⟨hn1, hn2⟩ := hn
      simp only at hn1 hn2
      rw [lookupS_eraseS] at hn1
      by_cases h0 : n = n0
      · rw [if_pos h0] at hn1
        cases hn1
      · rw [if_neg h0] at hn1
        rw [lookupS_setS, if_neg (fun hx : n0 = n => h0 hx.symm)] at hn2
        exact h n ⟨hn1, hn2⟩

theorem stepW_keeps_disjoint (w : Warehouse) (op : WOp) (hop : noSoftB op = true)
    (h : PartitionsDisjoint w) : PartitionsDisjoint (stepW w op) := by
  cases op with
  | enable n0 mode =>
    refine enableSkillW_keeps_disjoint w n0 mode ?_ h
    intro hmode
    subst hmode
    simp [noSoftB] at hop
  | disable n0 mode =>
    refine disableSkillW_keeps_disjoint w n0 mode ?_ h
    intro hmode
    subst hmode
    simp [noSoftB] at hop
  | importSrc names =>
    show PartitionsDisjoint (importSkills w names).1
    rw [importSkills, importSkills_foldl_fst]
    exact importFold_keeps_disjoint names w h

theorem runW_keeps_disjoint (ops : List WOp) :
    ∀ (w : Warehouse), (∀ op ∈ ops, noSoftB op = true) → PartitionsDisjoint w →
      PartitionsDisjoint (runW w ops) := by
  induction ops with
  | nil =>
    intro w _ h
    exact h
  | cons op rest ih =>
    intro w hops h
    show PartitionsDisjoint (List.foldl stepW w (op :: rest))
    rw [List.foldl_cons]
    exact ih (stepW w op)
      (fun o ho => hops o (List.mem_cons_of_mem _ ho))
      (stepW_keeps_disjoint w op (hops op (List.mem_cons_self _ _)) h)

/-- Claim C2, amended.  After any sequence of enable / disable / import
operations in which every move completes by rename or by a full copy + delete
(no soft success), no package name is present in both partitions.  (A
soft-success move deliberately leaves the copied source directory behind, so
it can put the name in both partitions — see the counterexample.) -/
theorem clean_move_sequences_preserve_uniqueness (w : Warehouse) (ops : List WOp)
    (hw : disjointPkgs w = true) (hops : ops.all noSoftB = true) :
    disjointPkgs (runW w ops) = true := by
  rw [disjointPkgs_iff] at hw ⊢
  exact runW_keeps_disjoint ops w (fun op ho => List.all_eq_true.mp hops op ho) hw

/-- Witness for C2 (amended): a clean import / enable / disable sequence keeps
the partitions disjoint. -/
theorem clean_move_sequences_preserve_uniqueness_witness :
    disjointPkgs (runW ⟨[], []⟩
      [.importSrc ["alpha", "beta"], .enable "alpha" .clean,
       .disable "alpha" .clean]) = true :=
  clean_move_sequences_preserve_uniqueness ⟨[], []⟩
    [.importSrc ["alpha", "beta"], .enable "alpha" .clean, .disable "alpha" .clean]
    (by decide) (by decide)

/-- Counterexample to claim C2 as stated: import `alpha` (it lands disabled),
then enable it with the move taking the soft-success path (copy succeeded,
delete of the source failed).  `enableSkill` reports success, and `alpha` is
now a package in both partitions at once. -/
theorem soft_success_enable_puts_name_in_both_partitions :
    lookupS (runW ⟨[], []⟩
      [.importSrc ["alpha"], .enable "alpha" .softDeleteFail]).enabled "alpha"
        = some true ∧
    lookupS (runW ⟨[], []⟩
      [.importSrc ["alpha"], .enable "alpha" .softDeleteFail]).disabled "alpha"
        = some true ∧
    disjointPkgs (runW ⟨[], []⟩
      [.importSrc ["alpha"], .enable "alpha" .softDeleteFail]) = false := by
  decide

/-! ## C7 — End-to-end re-sync counting -/

/-- Counterexample to claim C7 as stated.  Source with two package
directories: first sync adds both to `disabled/`; enable one; re-sync the
unchanged source.  The claim predicts `added = 1, updated = 1`, but the
re-import finds `pkgA` in the enabled partition and `pkgB` in the disabled
partition, so both count as `updated`: the result is `(0, 2)`, not `(1, 1)`. -/
theorem resync_counts_counterexample :
    ¬((importSkills
        (enableSkillW (importSkills ⟨[], []⟩ ["pkgA", "pkgB"]).1 "pkgA" .clean).2
        ["pkgA", "pkgB"]).2 = (1, 1)) := by
  decide

/-- Claim C7, amended.  First sync of a fresh source with two package
directories reports `added = 2, updated = 0`, both packages land in the
disabled partition and none in the enabled one; enabling `pkgA` succeeds; a
re-sync of the same unchanged source reports `added = 0, updated = 2` — the
already-disabled package counts as an update, not an add — and `pkgA` stays
enabled (and is gone from the disabled partition). -/
theorem resync_reports_zero_added_two_updated :
    (importSkills ⟨[], []⟩ ["pkgA", "pkgB"]).2 = (2, 0) ∧
    lookupS (importSkills ⟨[], []⟩ ["pkgA", "pkgB"]).1.disabled "pkgA" = some true ∧
    lookupS (importSkills ⟨[], []⟩ ["pkgA", "pkgB"]).1.disabled "pkgB" = some true ∧
    (importSkills ⟨[], []⟩ ["pkgA", "pkgB"]).1.enabled = [] ∧
    (enableSkillW (importSkills ⟨[], []⟩ ["pkgA", "pkgB"]).1 "pkgA" .clean).1 = .ok ∧
    (importSkills
        (enableSkillW (importSkills ⟨[], []⟩ ["pkgA", "pkgB"]).1 "pkgA" .clean).2
        ["pkgA", "pkgB"]).2 = (0, 2) ∧
    lookupS (importSkills
        (enableSkillW (importSkills ⟨[], []⟩ ["pkgA", "pkgB"]).1 "pkgA" .clean).2
        ["pkgA", "pkgB"]).1.enabled "pkgA" = some true ∧
    lookupS (importSkills
        (enableSkillW (importSkills ⟨[], []⟩ ["pkgA", "pkgB"]).1 "pkgA" .clean).2
        ["pkgA", "pkgB"]).1.disabled "pkgA" = none := by
  decide

end SkillsHub
